import Mathlib

/-!
Shallow embedding of the inference-and-explanation core of the
IVF/ICSI early-miscarriage-risk service (`src/web_app.py`).

The request handler `predict`, the pydantic input model `PatientFeatures`
and the column reordering `to_dataframe` are embedded directly from the
source.  Python floats arriving through JSON/pydantic are modelled as
`PyFloat` (a finite rational or one of the IEEE special values), because
pydantic's `float` fields accept NaN and the infinities by default
(`allow_inf_nan` is not disabled in the source).  The trained XGBoost
classifier is an opaque external collaborator; it is modelled as a
function producing the `predict_proba` row, which may fail with a Python
exception message, exactly the shape the handler consumes.

The three-tier risk categorisation and the SHAP-style attribution engine
are features of repository presentation variants that are not present in
`src/`; they are modelled from the spec and marked as such.
-/

namespace WebApp

/-- A Python `float` as pydantic delivers it: a finite rational value or
one of the IEEE special values NaN, +inf, -inf. -/
inductive PyFloat where
  | finite (q : ℚ)
  | nan
  | inf
  | ninf
deriving DecidableEq

/-- Negation of a Python float (used for a leading minus sign). -/
def PyFloat.neg : PyFloat → PyFloat
  | .finite q => .finite (-q)
  | .nan => .nan
  | .inf => .ninf
  | .ninf => .inf

/-- Whether a Python float is finite (not NaN and not an infinity). -/
def PyFloat.isFinite : PyFloat → Bool
  | .finite _ => true
  | _ => false

/-- A JSON value as it can appear for one field of the request body. -/
inductive RawValue where
  | num (x : PyFloat)
  | str (s : String)
  | boolean (b : Bool)
  | null
deriving DecidableEq

def dotChar : Char := Char.ofNat 46

def plusChar : Char := Char.ofNat 43

def minusChar : Char := Char.ofNat 45

def eLowerChar : Char := Char.ofNat 101

def eUpperChar : Char := Char.ofNat 69

def slashChar : Char := Char.ofNat 47

/-- Value of a list of decimal digit characters. -/
def digitsVal (ds : List Char) : Nat :=
  ds.foldl (fun a c => 10 * a + (c.toNat - 48)) 0

/-- Parse `digits`, `digits.digits`, `.digits` or `digits.` as a rational
(the mantissa grammar of Python's `float`). -/
def parseDecimalCore (cs : List Char) : Option ℚ :=
  let intPart := cs.takeWhile Char.isDigit
  let rest := cs.dropWhile Char.isDigit
  match rest with
  | [] => if intPart.isEmpty then none else some ((digitsVal intPart : ℚ))
  | c :: frac =>
    if c == dotChar && frac.all Char.isDigit && !(intPart.isEmpty && frac.isEmpty) then
      some ((digitsVal intPart : ℚ) + (digitsVal frac : ℚ) / ((10 : ℚ) ^ frac.length))
    else none

/-- Parse the signed digit string after the `e` of an exponent. -/
def parseExponentTail (cs : List Char) : Option ℤ :=
  match cs with
  | [] => none
  | c :: ds =>
    if c == plusChar then
      if !ds.isEmpty && ds.all Char.isDigit then some ((digitsVal ds : ℤ)) else none
    else if c == minusChar then
      if !ds.isEmpty && ds.all Char.isDigit then some (-(digitsVal ds : ℤ)) else none
    else if (c :: ds).all Char.isDigit then some ((digitsVal (c :: ds) : ℤ)) else none

def isExpChar (c : Char) : Bool := c == eLowerChar || c == eUpperChar

/-- Split a character list at the first `e`/`E`, if any. -/
def splitOnExp (cs : List Char) : List Char × Option (List Char) :=
  match cs.dropWhile (fun c => !isExpChar c) with
  | [] => (cs, none)
  | _ :: t => (cs.takeWhile (fun c => !isExpChar c), some t)

/-- Parse an unsigned Python float string: `inf`/`infinity`/`nan`
(case-insensitive) or a decimal mantissa with optional exponent. -/
def parseUnsignedFloat (cs : List Char) : Option PyFloat :=
  let low := cs.map Char.toLower
  if low = "inf".toList ∨ low = "infinity".toList then some .inf
  else if low = "nan".toList then some .nan
  else
    match splitOnExp cs with
    | (m, none) => (parseDecimalCore m).map PyFloat.finite
    | (m, some e) =>
      match parseDecimalCore m, parseExponentTail e with
      | some q, some k => some (.finite (q * (10 : ℚ) ^ k))
      | _, _ => none

/-- Strip leading and trailing whitespace from a character list. -/
def trimChars (cs : List Char) : List Char :=
  ((cs.dropWhile Char.isWhitespace).reverse.dropWhile Char.isWhitespace).reverse

/-- Python `float(s)` semantics on a string (leading/trailing whitespace
stripped, optional sign, then the unsigned grammar). -/
def parseFloatStr (s : String) : Option PyFloat :=
  match trimChars s.toList with
  | [] => none
  | c :: rest =>
    if c == plusChar then parseUnsignedFloat rest
    else if c == minusChar then (parseUnsignedFloat rest).map PyFloat.neg
    else parseUnsignedFloat (c :: rest)

/-- Pydantic lax-mode coercion of one JSON value to a `float` field:
numbers pass through (NaN and infinities included, since `allow_inf_nan`
is left at its default), numeric strings are coerced with `float(s)`,
booleans and null are rejected. -/
def coerceFloat : RawValue → Option PyFloat
  | .num x => some x
  | .str s => parseFloatStr s
  | .boolean _ => none
  | .null => none

/-- `FEATURES = ["Female_age", "BMI", "PLT", "FSH", "TSH"]` from the source:
the canonical training column order. -/
def FEATURES : List String := ["Female_age", "BMI", "PLT", "FSH", "TSH"]

/-- The pydantic request model `PatientFeatures`: five required float
fields in the declared (canonical) order. -/
structure PatientFeatures where
  Female_age : PyFloat
  BMI : PyFloat
  PLT : PyFloat
  FSH : PyFloat
  TSH : PyFloat
deriving DecidableEq

/-- Look one named field up in the raw JSON object and coerce it. -/
def getField (raw : List (String × RawValue)) (name : String) : Option PyFloat :=
  (raw.lookup name).bind coerceFloat

/-- Pydantic validation of the request body against `PatientFeatures`:
each of the five declared fields must be present and coercible to float;
unrecognized keys are ignored (the model sets no `extra` config, and
pydantic's default is `extra="ignore"`). -/
def validate (raw : List (String × RawValue)) : Option PatientFeatures :=
  match getField raw "Female_age", getField raw "BMI", getField raw "PLT",
      getField raw "FSH", getField raw "TSH" with
  | some a, some b, some p, some f, some t => some ⟨a, b, p, f, t⟩
  | _, _, _, _, _ => none

/-- `to_dataframe`: the single-row DataFrame restricted to the `FEATURES`
columns, i.e. the field values in canonical training order. -/
def to_dataframe (p : PatientFeatures) : List PyFloat :=
  [p.Female_age, p.BMI, p.PLT, p.FSH, p.TSH]

/-- The loaded XGBoost model, opaque to the handler: `predict_proba` on a
single-row frame yields the row `(P(class 0), P(class 1))`, or raises a
Python exception carrying a message string. -/
structure Classifier where
  predict_proba : List PyFloat → Except String (ℚ × ℚ)

/-- The JSON body of a successful `/predict` response: exactly the two
fields `probability` and `label`. -/
structure PredictResponse where
  probability : ℚ
  label : Nat
deriving DecidableEq

/-- `HTTPException(status_code, detail)` as raised by the handler. -/
structure HTTPException where
  status_code : Nat
  detail : String
deriving DecidableEq

/-- The `/predict` handler body: build the DataFrame, take
`model.predict_proba(df)[0, 1]` as the probability, set
`label = int(proba >= 0.5)`, and return both; any exception is converted
to `HTTPException(500, str(exc))`. -/
def predict (model : Classifier) (features : PatientFeatures) :
    Except HTTPException PredictResponse :=
  match model.predict_proba (to_dataframe features) with
  | .ok row =>
    .ok { probability := row.2, label := if (1 : ℚ) / 2 ≤ row.2 then 1 else 0 }
  | .error exc => .error { status_code := 500, detail := exc }

/-- The three risk tiers. -/
inductive RiskCategory where
  | LOW
  | MODERATE
  | HIGH
deriving DecidableEq

/-- Modelled from the spec: the three-tier categorisation of §4.2 (the
categorising presentation variants of the repository are not under
`src/`): probability above 0.5 is HIGH, below 0.2 is LOW, otherwise
MODERATE. -/
def riskCategory (p : ℚ) : RiskCategory :=
  if (1 : ℚ) / 2 < p then .HIGH
  else if p < (1 : ℚ) / 5 then .LOW
  else .MODERATE

/-- Result of inference: full-precision probability plus its tier. -/
structure RiskEstimate where
  probability : ℚ
  category : RiskCategory
deriving DecidableEq

/-- Modelled from the spec: the Risk Inference Engine of §4.2.  The
probability path is exactly the handler's (`predict_proba` row, positive
class, unmodified); the categorisation uses `riskCategory` because the
tiering code lives in repository variants outside `src/`. -/
def infer (model : Classifier) (features : PatientFeatures) :
    Except String RiskEstimate :=
  match model.predict_proba (to_dataframe features) with
  | .ok row => .ok { probability := row.2, category := riskCategory row.2 }
  | .error e => .error e

/-- Modelled from the spec: a regression tree of the gradient-boosted
ensemble (§4.3; the attribution engine is not under `src/`).  An internal
node carries the split feature index, the split threshold and the
expected model output over the training background reaching that node;
a leaf carries its output value. -/
inductive DTree where
  | leaf (value : ℚ)
  | node (feature : Nat) (threshold : ℚ) (expected : ℚ) (left right : DTree)
deriving DecidableEq

/-- Tree evaluation on a feature row: go left when the feature value is
below the threshold. -/
def DTree.valueAt (x : List ℚ) : DTree → ℚ
  | .leaf v => v
  | .node f t _ l r => if x.getD f 0 < t then l.valueAt x else r.valueAt x

/-- Expected output at the root of a (sub)tree. -/
def DTree.expectedValue : DTree → ℚ
  | .leaf v => v
  | .node _ _ e _ _ => e

/-- Modelled from the spec: the per-step attribution along the decision
path (§4.3): every split credits its feature with the change in expected
output from this node to the chosen child. -/
def DTree.pathSteps (x : List ℚ) : DTree → List (Nat × ℚ)
  | .leaf _ => []
  | .node f t e l r =>
    if x.getD f 0 < t then (f, l.expectedValue - e) :: l.pathSteps x
    else (f, r.expectedValue - e) :: r.pathSteps x

/-- Well-formedness: every split feature index is below `n`. -/
def DTree.wf (n : Nat) : DTree → Bool
  | .leaf _ => true
  | .node f _ _ l r => decide (f < n) && l.wf n && r.wf n

/-- Modelled from the spec: the opaque tree ensemble behind the raw
(log-odds) score — an intercept plus the sum of the trees' outputs. -/
structure XGBModel where
  intercept : ℚ
  trees : List DTree

/-- The classifier's raw log-odds output for a feature row. -/
def XGBModel.rawScore (m : XGBModel) (x : List ℚ) : ℚ :=
  m.intercept + (m.trees.map (DTree.valueAt x)).sum

/-- All attribution steps of the ensemble for one input. -/
def allSteps (m : XGBModel) (x : List ℚ) : List (Nat × ℚ) :=
  (m.trees.map (DTree.pathSteps x)).flatten

/-- Total contribution credited to feature index `i`. -/
def featureContrib (steps : List (Nat × ℚ)) (i : Nat) : ℚ :=
  ((steps.filter fun s => s.1 == i).map Prod.snd).sum

/-- The attribution result: a baseline and one named contribution per
feature, in canonical order. -/
structure AttributionResult where
  baseline : ℚ
  contributions : List (String × ℚ)
deriving DecidableEq

/-- Modelled from the spec: `explain` (§4.3) — baseline is the model's
expected output over the training background (intercept plus the trees'
root expectations, an amortized constant of the loaded classifier), and
the contributions are the per-feature path-attribution totals, emitted
in the canonical `FEATURES` order. -/
def explain (m : XGBModel) (x : List ℚ) : AttributionResult :=
  { baseline := m.intercept + (m.trees.map DTree.expectedValue).sum,
    contributions := FEATURES.enum.map fun p => (p.2, featureContrib (allSteps m x) p.1) }

/-- A classifier that assigns the positive class a constant probability. -/
def constClf (q : ℚ) : Classifier :=
  ⟨fun _ => .ok (1 - q, q)⟩

/-- A classifier whose `predict_proba` raises, with a message naming the
model artifact's file-system path. -/
def pathMsg : String := "model file not found: 2.training/xgb_model.pkl"

def errClf : Classifier :=
  ⟨fun _ => .error pathMsg⟩

/-- A representative validated feature vector. -/
def patient0 : PatientFeatures :=
  ⟨.finite 32, .finite (mkRat 45 2), .finite 250, .finite (mkRat 15 2), .finite 2⟩

/-- The spec's example body with `TSH` listed first. -/
def exOrder1 : List (String × RawValue) :=
  [("TSH", .num (.finite 2)), ("Female_age", .num (.finite 32)),
   ("BMI", .num (.finite (mkRat 45 2))), ("PLT", .num (.finite 250)),
   ("FSH", .num (.finite (mkRat 15 2)))]

/-- The spec's example body in canonical order. -/
def exOrder2 : List (String × RawValue) :=
  [("Female_age", .num (.finite 32)), ("BMI", .num (.finite (mkRat 45 2))),
   ("PLT", .num (.finite 250)), ("FSH", .num (.finite (mkRat 15 2))),
   ("TSH", .num (.finite 2))]

/-- The spec's example body with `TSH` missing. -/
def exMissingTSH : List (String × RawValue) :=
  [("Female_age", .num (.finite 32)), ("BMI", .num (.finite (mkRat 45 2))),
   ("PLT", .num (.finite 250)), ("FSH", .num (.finite (mkRat 15 2)))]

/-- The spec's example body with a non-numeric `Female_age`. -/
def exBadAge : List (String × RawValue) :=
  [("Female_age", .str "not-a-number"), ("BMI", .num (.finite (mkRat 45 2))),
   ("PLT", .num (.finite 250)), ("FSH", .num (.finite (mkRat 15 2))),
   ("TSH", .num (.finite 2))]

/-- A body whose `TSH` value is the non-finite float NaN. -/
def exNaN : List (String × RawValue) :=
  [("Female_age", .num (.finite 32)), ("BMI", .num (.finite (mkRat 45 2))),
   ("PLT", .num (.finite 250)), ("FSH", .num (.finite (mkRat 15 2))),
   ("TSH", .num .nan)]

/-- A body with an unrecognized extra field ahead of the five required
ones. -/
def exExtra : List (String × RawValue) :=
  ("Extra", RawValue.num (.finite 1)) :: exOrder2

/-- A small concrete ensemble for witnesses: one depth-one tree on
`Female_age` and one constant tree. -/
def mWit : XGBModel :=
  { intercept := 1 / 10,
    trees := [.node 0 35 (1 / 10) (.leaf 0) (.leaf (3 / 10)), .leaf (1 / 20)] }

/-- A concrete feature row for witnesses. -/
def xWit : List ℚ := [32, mkRat 45 2, 250, mkRat 15 2, 2]

theorem lookup_eq_of_perm {α β : Type} [BEq α] [LawfulBEq α]
    {l₁ l₂ : List (α × β)} (hp : l₁.Perm l₂)
    (hn : (l₁.map Prod.fst).Nodup) (k : α) :
    l₁.lookup k = l₂.lookup k := by
  induction hp with
  | nil => rfl
  | cons x p ih =>
    obtain ⟨x1, x2⟩ := x
    rw [List.map_cons, List.nodup_cons] at hn
    cases hk : k == x1 <;> simp [List.lookup, hk, ih hn.2]
  | swap x y l =>
    obtain ⟨x1, x2⟩ := x
    obtain ⟨y1, y2⟩ := y
    rw [List.map_cons, List.map_cons, List.nodup_cons, List.nodup_cons] at hn
    cases hky : k == y1 <;> cases hkx : k == x1 <;>
      simp [List.lookup, hky, hkx]
    have hyx : y1 ≠ x1 := fun h => hn.1 (h ▸ List.mem_cons_self _ _)
    exact absurd ((eq_of_beq hky).symm.trans (eq_of_beq hkx)) hyx
  | trans p₁ p₂ ih₁ ih₂ =>
    have hn₂ := ((p₁.map Prod.fst).nodup_iff).mp hn
    rw [ih₁ hn, ih₂ hn₂]

/-- C4: validation is invariant under the ordering of keys in the input
mapping — two raw bodies that are permutations of one another (with
distinct keys, as in any JSON object) validate to identical
`PatientFeatures` records, whose fields are fixed in the canonical
training order. -/
theorem C4_validate_order_invariant (raw₁ raw₂ : List (String × RawValue))
    (hp : raw₁.Perm raw₂) (hn : (raw₁.map Prod.fst).Nodup) :
    validate raw₁ = validate raw₂ := by
  simp only [validate, getField, lookup_eq_of_perm hp hn]

/-- C4 witness: the spec's two example bodies — `TSH` listed first versus
canonical order — validate to the same feature vector. -/
theorem C4_validate_order_invariant_witness :
    validate exOrder1 = validate exOrder2 :=
  C4_validate_order_invariant exOrder1 exOrder2 (by decide) (by decide)

/-- C5 (amended): validation fails exactly when one of the five required
fields is missing from the body or its value cannot be coerced to a
Python float (non-numeric); in particular the body with `TSH` missing and
the body with a non-numeric `Female_age` are rejected.  Non-finite values
are NOT rejected: pydantic's `float` fields keep their default
`allow_inf_nan=True`, so NaN and the infinities validate successfully
(see the counterexample). -/
theorem C5_validation_rejection :
    (∀ raw : List (String × RawValue),
      (validate raw).isSome = true ↔
        ∀ name ∈ FEATURES, (getField raw name).isSome = true) ∧
    validate exMissingTSH = none ∧ validate exBadAge = none := by
  refine ⟨fun raw => ?_, rfl, rfl⟩
  rcases hA : getField raw "Female_age" with _ | a <;>
    rcases hB : getField raw "BMI" with _ | b <;>
      rcases hP : getField raw "PLT" with _ | p <;>
        rcases hF : getField raw "FSH" with _ | f <;>
          rcases hT : getField raw "TSH" with _ | t <;>
            simp [validate, hA, hB, hP, hF, hT, FEATURES]

/-- C5 counterexample: a body whose `TSH` is the non-finite float NaN is
accepted by validation (the claim says it must be rejected), and the
resulting feature vector carries the NaN into inference. -/
theorem C5_validation_rejection_counterexample :
    validate exNaN =
      some ⟨.finite 32, .finite (mkRat 45 2), .finite 250,
        .finite (mkRat 15 2), .nan⟩ ∧
    PyFloat.isFinite .nan = false := by
  exact ⟨rfl, rfl⟩

/-- C8 (amended): an unrecognized extra field in the body is silently
ignored, not rejected — pydantic's default `extra="ignore"` applies since
the source sets no model config: validation with the extra field present
returns exactly the result it returns without it. -/
theorem C8_extra_field_ignored (raw : List (String × RawValue))
    (k : String) (v : RawValue) (hk : k ∉ FEATURES) :
    validate ((k, v) :: raw) = validate raw := by
  have hne : ∀ name ∈ FEATURES, (name == k) = false := by
    intro name hname
    simp only [beq_eq_false_iff_ne]
    rintro rfl
    exact hk hname
  have hget : ∀ name ∈ FEATURES, getField ((k, v) :: raw) name = getField raw name := by
    intro name hname
    simp [getField, List.lookup, hne name hname]
  simp only [validate,
    hget "Female_age" (by simp [FEATURES]), hget "BMI" (by simp [FEATURES]),
    hget "PLT" (by simp [FEATURES]), hget "FSH" (by simp [FEATURES]),
    hget "TSH" (by simp [FEATURES])]

/-- C8 witness: prepending the unrecognized field `Extra` to the
canonical example body leaves the validation result unchanged. -/
theorem C8_extra_field_ignored_witness :
    validate exExtra = validate exOrder2 :=
  C8_extra_field_ignored exOrder2 "Extra" (RawValue.num (.finite 1)) (by decide)

/-- C8 counterexample: the body with the unrecognized extra field
`Extra` validates successfully (the claim says strict rejection), to the
same feature vector as the spec's example. -/
theorem C8_extra_field_ignored_counterexample :
    validate exExtra =
      some ⟨.finite 32, .finite (mkRat 45 2), .finite 250,
        .finite (mkRat 15 2), .finite 2⟩ := by
  exact rfl

theorem riskCategory_spec (p : ℚ) :
    (riskCategory p = RiskCategory.HIGH ↔ (1 : ℚ) / 2 < p) ∧
    (riskCategory p = RiskCategory.LOW ↔ p < (1 : ℚ) / 5) ∧
    (riskCategory p = RiskCategory.MODERATE ↔
      (1 : ℚ) / 5 ≤ p ∧ p ≤ (1 : ℚ) / 2) := by
  unfold riskCategory
  split_ifs with h1 h2
  · exact ⟨⟨fun _ => h1, fun _ => rfl⟩,
      ⟨fun hx => by simp at hx, fun hx => (by linarith : False).elim⟩,
      ⟨fun hx => by simp at hx, fun hx => (by linarith [hx.2] : False).elim⟩⟩
  · exact ⟨⟨fun hx => by simp at hx, fun hx => absurd hx h1⟩,
      ⟨fun _ => h2, fun _ => rfl⟩,
      ⟨fun hx => by simp at hx, fun hx => (by linarith [hx.1] : False).elim⟩⟩
  · exact ⟨⟨fun hx => by simp at hx, fun hx => absurd hx h1⟩,
      ⟨fun hx => by simp at hx, fun hx => absurd hx h2⟩,
      ⟨fun _ => ⟨le_of_not_lt h2, le_of_not_lt h1⟩, fun _ => rfl⟩⟩

/-- C1: for every validated feature vector, inference assigns the risk
category as a three-tier function of the probability alone — HIGH iff
the probability exceeds 0.5, LOW iff it is below 0.2, MODERATE iff it
lies in the closed band between them. -/
theorem C1_three_tier_category (model : Classifier) (f : PatientFeatures)
    (est : RiskEstimate) (h : infer model f = .ok est) :
    (est.category = RiskCategory.HIGH ↔ (1 : ℚ) / 2 < est.probability) ∧
    (est.category = RiskCategory.LOW ↔ est.probability < (1 : ℚ) / 5) ∧
    (est.category = RiskCategory.MODERATE ↔
      (1 : ℚ) / 5 ≤ est.probability ∧ est.probability ≤ (1 : ℚ) / 2) := by
  cases hm : model.predict_proba (to_dataframe f) with
  | error e => simp [infer, hm] at h
  | ok row =>
    simp only [infer, hm] at h
    cases h
    exact riskCategory_spec row.2

/-- C1 witness: a classifier that returns probability 0.7 categorises the
representative patient as the three-tier policy dictates. -/
theorem C1_three_tier_category_witness :
    ((RiskEstimate.mk (7 / 10) (riskCategory (7 / 10))).category =
        RiskCategory.HIGH ↔
      (1 : ℚ) / 2 < (RiskEstimate.mk (7 / 10) (riskCategory (7 / 10))).probability) ∧
    ((RiskEstimate.mk (7 / 10) (riskCategory (7 / 10))).category =
        RiskCategory.LOW ↔
      (RiskEstimate.mk (7 / 10) (riskCategory (7 / 10))).probability < (1 : ℚ) / 5) ∧
    ((RiskEstimate.mk (7 / 10) (riskCategory (7 / 10))).category =
        RiskCategory.MODERATE ↔
      (1 : ℚ) / 5 ≤ (RiskEstimate.mk (7 / 10) (riskCategory (7 / 10))).probability ∧
        (RiskEstimate.mk (7 / 10) (riskCategory (7 / 10))).probability ≤ (1 : ℚ) / 2) :=
  C1_three_tier_category (constClf (7 / 10)) patient0 _ rfl

/-- C2: at the exact thresholds categorisation is exclusive —
probability exactly 0.5 is MODERATE (not HIGH), exactly 0.2 is MODERATE
(not LOW), while 0.5000001 is HIGH and 0.1999999 is LOW. -/
theorem C2_threshold_boundaries :
    riskCategory ((1 : ℚ) / 2) = RiskCategory.MODERATE ∧
    riskCategory ((1 : ℚ) / 2) ≠ RiskCategory.HIGH ∧
    riskCategory ((1 : ℚ) / 5) = RiskCategory.MODERATE ∧
    riskCategory ((1 : ℚ) / 5) ≠ RiskCategory.LOW ∧
    riskCategory ((5000001 : ℚ) / 10000000) = RiskCategory.HIGH ∧
    riskCategory ((1999999 : ℚ) / 10000000) = RiskCategory.LOW := by
  have hm : riskCategory ((1 : ℚ) / 2) = RiskCategory.MODERATE := by
    simp only [riskCategory]
    norm_num
  have hm2 : riskCategory ((1 : ℚ) / 5) = RiskCategory.MODERATE := by
    simp only [riskCategory]
    norm_num
  refine ⟨hm, by rw [hm]; decide, hm2, by rw [hm2]; decide, ?_, ?_⟩ <;>
    simp only [riskCategory] <;> norm_num

/-- C6: inference is deterministic — for one fixed classifier and one
fixed validated feature vector, two successful runs of `infer` return
bit-for-bit the same probability and the same category, and two runs of
the `predict` handler return the same response. -/
theorem C6_inference_deterministic (model : Classifier) (f : PatientFeatures)
    (est₁ est₂ : RiskEstimate)
    (h₁ : infer model f = .ok est₁) (h₂ : infer model f = .ok est₂) :
    est₁.probability = est₂.probability ∧ est₁.category = est₂.category ∧
    predict model f = predict model f := by
  rw [h₁] at h₂
  cases h₂
  exact ⟨rfl, rfl, rfl⟩

/-- C6 witness: two runs on the constant-0.7 classifier agree. -/
theorem C6_inference_deterministic_witness :
    (RiskEstimate.mk (7 / 10) (riskCategory (7 / 10))).probability =
      (RiskEstimate.mk (7 / 10) (riskCategory (7 / 10))).probability ∧
    (RiskEstimate.mk (7 / 10) (riskCategory (7 / 10))).category =
      (RiskEstimate.mk (7 / 10) (riskCategory (7 / 10))).category ∧
    predict (constClf (7 / 10)) patient0 = predict (constClf (7 / 10)) patient0 :=
  C6_inference_deterministic (constClf (7 / 10)) patient0 _ _ rfl rfl

/-- C7 (amended): when the classifier call raises, the handler surfaces
HTTP 500 whose `detail` is the internal exception text verbatim
(`str(exc)`) — so file-system paths in that text DO reach the caller —
and it fabricates no probability: the error response carries no
probability field. -/
theorem C7_error_detail_verbatim (model : Classifier) (f : PatientFeatures)
    (msg : String) (h : model.predict_proba (to_dataframe f) = .error msg) :
    predict model f = .error { status_code := 500, detail := msg } := by
  simp [predict, h]

/-- C7 witness: the always-raising classifier yields the 500 response
with its message as `detail`. -/
theorem C7_error_detail_verbatim_witness :
    predict errClf patient0 = .error { status_code := 500, detail := pathMsg } :=
  C7_error_detail_verbatim errClf patient0 pathMsg rfl

/-- C7 counterexample: the claim that internal exception text revealing
file-system paths never reaches the caller is false — a classifier whose
exception message names the model artifact's path produces a response
whose `detail` is exactly that message, slash and `.pkl` path included. -/
theorem C7_error_detail_verbatim_counterexample :
    predict errClf patient0 = .error { status_code := 500, detail := pathMsg } ∧
    pathMsg = "model file not found: 2.training/xgb_model.pkl" ∧
    (pathMsg.toList.contains slashChar) = true :=
  ⟨rfl, rfl, by decide⟩

/-- C9: the probability the handler returns is exactly the probability
mass `predict_proba` assigns to the positive class — no rounding, no
clamping — and, whenever the classifier meets its probability contract,
it lies in [0,1]. -/
theorem C9_probability_unmodified (model : Classifier) (f : PatientFeatures)
    (row : ℚ × ℚ) (h : model.predict_proba (to_dataframe f) = .ok row)
    (h0 : 0 ≤ row.2) (h1 : row.2 ≤ 1) :
    ∃ r : PredictResponse, predict model f = .ok r ∧
      r.probability = row.2 ∧ 0 ≤ r.probability ∧ r.probability ≤ 1 := by
  refine ⟨{ probability := row.2, label := if (1 : ℚ) / 2 ≤ row.2 then 1 else 0 },
    ?_, rfl, h0, h1⟩
  simp [predict, h]

/-- C9 witness: the constant-0.3 classifier's probability is returned
unmodified and lies in [0,1]. -/
theorem C9_probability_unmodified_witness :
    ∃ r : PredictResponse, predict (constClf (3 / 10)) patient0 = .ok r ∧
      r.probability = (3 / 10 : ℚ) ∧ 0 ≤ r.probability ∧ r.probability ≤ 1 :=
  C9_probability_unmodified (constClf (3 / 10)) patient0 (1 - 3 / 10, 3 / 10)
    rfl (by norm_num) (by norm_num)

/-- C10: every successful response consists of exactly the unmodified
probability and a binary label that is 1 iff the probability is at least
0.5 (so exactly 0.5 yields label 1), and 0 otherwise. -/
theorem C10_binary_label (model : Classifier) (f : PatientFeatures)
    (row : ℚ × ℚ) (h : model.predict_proba (to_dataframe f) = .ok row) :
    ∃ r : PredictResponse, predict model f = .ok r ∧
      r.probability = row.2 ∧
      (r.label = 1 ↔ (1 : ℚ) / 2 ≤ row.2) ∧
      (r.label = 0 ↔ row.2 < (1 : ℚ) / 2) := by
  have hiff1 : ((if (1 : ℚ) / 2 ≤ row.2 then (1 : Nat) else 0) = 1) ↔
      (1 : ℚ) / 2 ≤ row.2 := by
    split_ifs with hc
    · exact ⟨fun _ => hc, fun _ => rfl⟩
    · exact ⟨fun h01 => h01.elim, fun hx => absurd hx hc⟩
  have hiff0 : ((if (1 : ℚ) / 2 ≤ row.2 then (1 : Nat) else 0) = 0) ↔
      row.2 < (1 : ℚ) / 2 := by
    split_ifs with hc
    · exact ⟨fun h10 => h10.elim, fun hx => absurd hc (not_le.mpr hx)⟩
    · exact ⟨fun _ => not_le.mp hc, fun _ => rfl⟩
  refine ⟨{ probability := row.2, label := if (1 : ℚ) / 2 ≤ row.2 then 1 else 0 },
    ?_, rfl, hiff1, hiff0⟩
  simp [predict, h]

/-- C10 witness: at probability exactly 0.5 the label is 1. -/
theorem C10_binary_label_witness :
    ∃ r : PredictResponse, predict (constClf (1 / 2)) patient0 = .ok r ∧
      r.probability = ((1 : ℚ) - 1 / 2, (1 : ℚ) / 2).2 ∧
      (r.label = 1 ↔ (1 : ℚ) / 2 ≤ ((1 : ℚ) - 1 / 2, (1 : ℚ) / 2).2) ∧
      (r.label = 0 ↔ ((1 : ℚ) - 1 / 2, (1 : ℚ) / 2).2 < (1 : ℚ) / 2) :=
  C10_binary_label (constClf (1 / 2)) patient0 (1 - 1 / 2, 1 / 2) rfl

theorem DTree.expected_add_pathSteps (x : List ℚ) (t : DTree) :
    t.expectedValue + ((t.pathSteps x).map Prod.snd).sum = t.valueAt x := by
  induction t with
  | leaf v => simp [DTree.pathSteps, DTree.valueAt, DTree.expectedValue]
  | node f th e l r ihl ihr =>
    by_cases hc : x.getD f 0 < th
    · simp only [DTree.pathSteps, DTree.valueAt, if_pos hc,
        List.map_cons, List.sum_cons]
      rw [show (DTree.node f th e l r).expectedValue = e from rfl]
      linarith
    · simp only [DTree.pathSteps, DTree.valueAt, if_neg hc,
        List.map_cons, List.sum_cons]
      rw [show (DTree.node f th e l r).expectedValue = e from rfl]
      linarith

theorem DTree.pathSteps_feature_lt (x : List ℚ) (n : Nat) (t : DTree)
    (hwf : t.wf n = true) : ∀ s ∈ t.pathSteps x, s.1 < n := by
  induction t with
  | leaf v => simp [DTree.pathSteps]
  | node f th e l r ihl ihr =>
    simp only [DTree.wf, Bool.and_eq_true, decide_eq_true_eq] at hwf
    intro s hs
    by_cases hc : x.getD f 0 < th
    · rw [DTree.pathSteps, if_pos hc] at hs
      rcases List.mem_cons.mp hs with rfl | hs
      · exact hwf.1.1
      · exact ihl hwf.1.2 s hs
    · rw [DTree.pathSteps, if_neg hc] at hs
      rcases List.mem_cons.mp hs with rfl | hs
      · exact hwf.1.1
      · exact ihr hwf.2 s hs

theorem featureContrib_cons (j : Nat) (v : ℚ) (rest : List (Nat × ℚ)) (i : Nat) :
    featureContrib ((j, v) :: rest) i =
      (if j = i then v else 0) + featureContrib rest i := by
  by_cases hj : j = i
  · simp [featureContrib, List.filter_cons, hj]
  · simp [featureContrib, List.filter_cons, hj]

theorem sum_featureContrib (steps : List (Nat × ℚ))
    (h : ∀ s ∈ steps, s.1 < 5) :
    featureContrib steps 0 + featureContrib steps 1 + featureContrib steps 2 +
      featureContrib steps 3 + featureContrib steps 4 =
      (steps.map Prod.snd).sum := by
  induction steps with
  | nil => simp [featureContrib]
  | cons s rest ih =>
    obtain ⟨j, v⟩ := s
    have hj : j < 5 := h _ (List.mem_cons_self _ _)
    have hrest : ∀ s ∈ rest, s.1 < 5 := fun s hs => h s (List.mem_cons_of_mem _ hs)
    simp only [featureContrib_cons, List.map_cons, List.sum_cons]
    rw [← ih hrest]
    interval_cases j <;> simp <;> ring

theorem trees_telescope (x : List ℚ) (ts : List DTree) :
    (ts.map DTree.expectedValue).sum +
      (((ts.map (DTree.pathSteps x)).flatten.map Prod.snd)).sum =
      (ts.map (DTree.valueAt x)).sum := by
  induction ts with
  | nil => simp
  | cons t rest ih =>
    simp only [List.map_cons, List.flatten_cons, List.map_append,
      List.sum_append, List.sum_cons]
    have ht := DTree.expected_add_pathSteps x t
    linarith

/-- C3: additivity / local accuracy of the attribution — for every
well-formed ensemble and every feature row, the baseline plus the sum of
the five per-feature contributions equals the classifier's raw log-odds
output exactly (and so within the spec's 1e-6 tolerance). -/
theorem C3_explain_additivity (m : XGBModel) (x : List ℚ)
    (hwf : m.trees.all (DTree.wf FEATURES.length) = true) :
    (explain m x).baseline + (((explain m x).contributions.map Prod.snd)).sum =
      m.rawScore x ∧
    |(explain m x).baseline + (((explain m x).contributions.map Prod.snd)).sum -
      m.rawScore x| ≤ 1 / 1000000 := by
  have hlt : ∀ s ∈ allSteps m x, s.1 < 5 := by
    intro s hs
    rcases List.mem_flatten.mp hs with ⟨l, hl, hsl⟩
    rcases List.mem_map.mp hl with ⟨t, ht, rfl⟩
    exact DTree.pathSteps_feature_lt x 5 t
      (by simpa [FEATURES] using List.all_eq_true.mp hwf t ht) s hsl
  have hmap : (explain m x).contributions.map Prod.snd =
      [featureContrib (allSteps m x) 0, featureContrib (allSteps m x) 1,
       featureContrib (allSteps m x) 2, featureContrib (allSteps m x) 3,
       featureContrib (allSteps m x) 4] := rfl
  have hsum := sum_featureContrib (allSteps m x) hlt
  have htel := trees_telescope x m.trees
  have heq : (explain m x).baseline +
      (((explain m x).contributions.map Prod.snd)).sum = m.rawScore x := by
    rw [hmap]
    simp only [List.sum_cons, List.sum_nil]
    show m.intercept + (m.trees.map DTree.expectedValue).sum + _ = _
    rw [XGBModel.rawScore]
    have : featureContrib (allSteps m x) 0 +
        (featureContrib (allSteps m x) 1 + (featureContrib (allSteps m x) 2 +
          (featureContrib (allSteps m x) 3 + (featureContrib (allSteps m x) 4 + 0)))) =
        ((allSteps m x).map Prod.snd).sum := by
      rw [← hsum]
      ring
    rw [this]
    unfold allSteps at *
    linarith
  refine ⟨heq, ?_⟩
  rw [heq]
  simp

/-- C3 witness: the two-tree example ensemble is well formed and its
attribution is exactly additive on the example row. -/
theorem C3_explain_additivity_witness :
    (mWit.trees.all (DTree.wf FEATURES.length) = true) ∧
    ((explain mWit xWit).baseline +
        (((explain mWit xWit).contributions.map Prod.snd)).sum =
      mWit.rawScore xWit ∧
    |(explain mWit xWit).baseline +
        (((explain mWit xWit).contributions.map Prod.snd)).sum -
      mWit.rawScore xWit| ≤ 1 / 1000000) :=
  ⟨by decide, C3_explain_additivity mWit xWit (by decide)⟩

end WebApp
